import Mathlib

/-!
A shallow embedding of the core simulation engine of the `senile_ant_simulator`
repository (files `src/ant_sim_frame_impl.rs`, `src/ant_sim.rs`, `src/ant_sim_ant.rs`),
together with theorems settling the specification claims about it.

Modelling conventions:
* `usize`/`u64` values are `Nat`; where the Rust code can wrap (release-mode
  two's-complement wraparound of `usize` subtraction, `u64`/`u32` addition) the
  wraparound is made explicit with `% 2 ^ 64` / `% 2 ^ 32` (`usub`, seed stepping,
  pheromone accumulators).  `u16::MAX` is the constant 65535.
* `f64` values (scores, weights, distance points) are modelled as `ℚ`.  The two
  operations that are not rational (`f64::sqrt` and the external
  `fasthash::mum::Hasher64`) are parameters of the embedding (`sqrtFn`, `hashFn`):
  every theorem below either holds for all choices of these parameters or is
  evaluated on inputs where the `f64` computation is exact, so no claim is decided
  by a rounding difference.
* A Rust `panic!`/failed `assert!`/`unwrap()` is modelled by an `Option`-valued
  function returning `none`.
* `AntVisualRangeBuffer` (the per-config ring-buffer backing) is materialised as
  freshly `None`-initialised ring buffers of the sizes produced by
  `AntVisualRangeBuffer::new`/`buffers`; within one tick the buffers are threaded
  through the ants exactly as the mutable slices are in the source.
-/

namespace AntSim

/-- `u16::MAX`, the sentinel value of the packed cell encoding. -/
def U16MAX : Nat := 65535

/-- Modulus of `u64`/`usize` arithmetic. -/
def W64 : Nat := 2 ^ 64

/-- Modulus of `u32` arithmetic. -/
def W32 : Nat := 2 ^ 32

/-- Release-mode `usize` subtraction: wraps at `2 ^ 64`. -/
def usub (a b : Nat) : Nat := (a + (W64 - b % W64)) % W64

/-- `AntPosition` (ant_sim_frame.rs): a logical x/y coordinate pair. -/
structure AntPosition where
  x : Nat
  y : Nat
deriving DecidableEq

/-- Modelled from the spec: `NonMaxU16.dec_by`.  The `NonMaxU16` type lives in the
revision of `ant_sim_frame.rs` that the other core files compile against, which is
not the (older, `NonMaxU8`-based) copy present under src/.  The in-src `NonMaxU8`
twin implements `dec_by` as `saturating_sub`, and the spec fixes the behaviour as
"reduced by `config.pheromone_decay_amount` (saturating at zero)"; `Nat`
subtraction is exactly that saturating subtraction. -/
def NonMaxU16.dec_by (v amount : Nat) : Nat := v - amount

/-- `AntSimCell` (ant_sim_frame.rs, newer revision): the four cell variants.
Pheromone/amount fields are `u16` values modelled as `Nat`. -/
inductive AntSimCell where
  | path (pheromone_food pheromone_home : Nat)
  | blocker
  | home
  | food (amount : Nat)
deriving DecidableEq

/-- `AntSimCellImpl` (ant_sim_frame_impl.rs): the packed two-`u16` cell. -/
structure AntSimCellImpl where
  p1 : Nat
  p2 : Nat
deriving DecidableEq

/-- `AntSimCellImpl::to_cell` (ant_sim_frame_impl.rs lines 19-39). -/
def AntSimCellImpl.to_cell (c : AntSimCellImpl) : AntSimCell :=
  if c.p2 = U16MAX then
    .food c.p1
  else if c.p1 = U16MAX then
    (if c.p2 = 0 then .blocker else .home)
  else
    .path c.p1 c.p2

/-- `AntSimCellImpl::from_cell` (ant_sim_frame_impl.rs lines 40-65). -/
def AntSimCellImpl.from_cell : AntSimCell → AntSimCellImpl
  | .path f h => ⟨f, h⟩
  | .blocker => ⟨U16MAX, 0⟩
  | .home => ⟨U16MAX, 1⟩
  | .food a => ⟨a, U16MAX⟩

/-- `AntSimCellImpl::with_decreased_pheromone` (ant_sim_frame_impl.rs lines 66-73):
`dec_by = ((p1 != MAX) & (p2 != MAX)) as u16 * amount`, then `saturating_sub`. -/
def AntSimCellImpl.with_decreased_pheromone (c : AntSimCellImpl) (amount : Nat) : AntSimCellImpl :=
  let dec_by := (if c.p1 ≠ U16MAX ∧ c.p2 ≠ U16MAX then 1 else 0) * amount
  ⟨c.p1 - dec_by, c.p2 - dec_by⟩

/-- `AntSimVecImpl` (ant_sim_frame_impl.rs): dense row-major cell storage.
Its `Position` type (`AntPositionImpl`, a transparent `usize`) is modelled as `Nat`. -/
structure AntSimVecImpl where
  contains : List AntSimCellImpl
  height : Nat
  width : Nat
deriving DecidableEq

/-- `AntSimVecImpl::check_compatible`: equal cell count, height and width. -/
def AntSimVecImpl.check_compatible (a b : AntSimVecImpl) : Bool :=
  a.contains.length == b.contains.length && a.height == b.height && a.width == b.width

/-- `AntSimVecImpl::check_invariant`: `height * width == contains.len()`
(the `overflowing_mul` test never fires on `Nat`). -/
def AntSimVecImpl.check_invariant (g : AntSimVecImpl) : Bool :=
  g.height * g.width == g.contains.length

/-- `AntSimVecImpl::decode`: `y = pos / width`, `x = pos % width`. -/
def AntSimVecImpl.decode (g : AntSimVecImpl) (position : Nat) : AntPosition :=
  ⟨position % g.width, position / g.width⟩

/-- `AntSimVecImpl::encode`: `Some(y * width + x)` iff in bounds. -/
def AntSimVecImpl.encode (g : AntSimVecImpl) (position : AntPosition) : Option Nat :=
  if position.x < g.width ∧ position.y < g.height then
    some (position.y * g.width + position.x)
  else
    none

/-- `AntSimVecImpl::cell`: bounds-checked read. -/
def AntSimVecImpl.cell (g : AntSimVecImpl) (position : Nat) : Option AntSimCell :=
  (g.contains.get? position).map AntSimCellImpl.to_cell

/-- `AntSimVecImpl::set_cell`: bounds-checked write, silent no-op out of range
(`List.set` is exactly that no-op). -/
def AntSimVecImpl.set_cell (g : AntSimVecImpl) (position : Nat) (c : AntSimCell) : AntSimVecImpl :=
  { g with contains := g.contains.set position (AntSimCellImpl.from_cell c) }

/-- `AntSimVecImpl::cells`: full row-major scan.  The source iterator first runs
`check_invariant` (an assertion), so the scan is `Option`-valued here. -/
def AntSimVecImpl.cells (g : AntSimVecImpl) : Option (List (AntSimCell × Nat)) :=
  if g.check_invariant then
    some (g.contains.enum.map (fun ic => (ic.2.to_cell, ic.1)))
  else
    none

/-- Well-formedness of the storage: every packed field is an actual `u16` value.
Automatic in Rust from the field types; a hypothesis here. -/
def AntSimVecImpl.WF (g : AntSimVecImpl) : Prop :=
  ∀ ci ∈ g.contains, ci.p1 ≤ U16MAX ∧ ci.p2 ≤ U16MAX

instance (g : AntSimVecImpl) : Decidable g.WF :=
  inferInstanceAs (Decidable (∀ ci ∈ g.contains, ci.p1 ≤ U16MAX ∧ ci.p2 ≤ U16MAX))

/-- `AntState` (ant_sim_ant.rs; haul amount is `u16` in the revision the save
subsystem compiles against). -/
inductive AntState where
  | foraging
  | hauling (amount : Nat)
deriving DecidableEq

/-- `Ant` (ant_sim_ant.rs).  `explore_weight` is an `f64`, modelled as `ℚ`. -/
structure Ant where
  position : Nat
  last_position : Nat
  state : AntState
  explore_weight : ℚ
deriving DecidableEq

/-- `AntSimConfig` (ant_sim.rs).  `visual_range` keeps only the range of the
`AntVisualRangeBuffer` (its backing storage is materialised per tick, below). -/
structure AntSimConfig where
  distance_points : List (ℚ × ℚ)
  food_haul_amount : Nat
  pheromone_decay_amount : Nat
  seed_step : Nat
  visual_range : Nat
deriving DecidableEq

/-- `AntSimulator` (ant_sim.rs). -/
structure AntSimulator where
  sim : AntSimVecImpl
  ants : List Ant
  seed : Nat
  config : AntSimConfig
deriving DecidableEq

/-- `AntVisualRangeBuffer::new` + `buffers` (ant_sim.rs lines 40-62): ring `r`
(1-indexed) gets a buffer of `8 * r` slots, all initially `None`. -/
def visual_buffers (range : Nat) : List (List (Option Nat)) :=
  (List.range range).map (fun r => List.replicate ((r + 1) * 8) (none : Option Nat))

/-- `decay_path` (ant_sim.rs lines 138-143). -/
def decay_path (p_food p_home decay_by : Nat) : AntSimCell :=
  .path (NonMaxU16.dec_by p_food decay_by) (NonMaxU16.dec_by p_home decay_by)

/-- The mapping closure of `decay_pheromones` (ant_sim.rs lines 144-153): decay
Path cells, pass every other cell through. -/
def decay_cell_map (decay_amount : Nat) : AntSimCell × Nat → AntSimCell × Nat
  | (.path pheromone_food pheromone_home, pos) =>
      (decay_path pheromone_food pheromone_home decay_amount, pos)
  | (other, pos) => (other, pos)

/-- `AntSimulator::decay_pheromones` (ant_sim.rs lines 137-157): map the source
scan, writing every (possibly decayed) cell into the destination grid. -/
def decay_pheromones (from_ on_sim : AntSimVecImpl) (decay_amount : Nat) :
    Option AntSimVecImpl :=
  (from_.cells).map fun cs =>
    (cs.map (decay_cell_map decay_amount)).foldl
      (fun g cp => g.set_cell cp.2 cp.1) on_sim

/-- `take_food` (ant_sim.rs lines 109-115). -/
def take_food (amount haul_amount : Nat) : Nat × AntSimCell :=
  if haul_amount < amount then
    (haul_amount, .food (amount - haul_amount))
  else
    (amount, .path 0 0)

/-- Writes a run of consecutive slots `start, start+1, ...` of a ring buffer,
mirroring the `buffer[start_i] = ...; start_i += 1;` loops of `neighbors`. -/
def write_seq (buf : List (Option Nat)) (start : Nat) : List (Option Nat) → List (Option Nat)
  | [] => buf
  | v :: rest => write_seq (buf.set start v) (start + 1) rest

/-- One ring of `neighbors` (ant_sim.rs lines 188-223): the four side-walk loops
writing encoded positions (or `None` off-grid) at precomputed indices. -/
def neighbors_ring (g : AntSimVecImpl) (x y dx dy ux uy r : Nat)
    (buf : List (Option Nat)) : List (Option Nat) :=
  let down_start_x := min dx r
  let up_end_x := min ux r
  let down_start_y := min dy (r - 1)
  let up_end_y := min uy (r - 1)
  let buf := if r ≤ uy then
      write_seq buf (r - down_start_x)
        ((List.range' (x - down_start_x) (down_start_x + up_end_x + 1)).map
          (fun xi => g.encode ⟨xi, y + r⟩))
    else buf
  let buf := if r ≤ ux then
      write_seq buf (1 + 2 * r + (r - 1 - up_end_y))
        (((List.range' (y - down_start_y) (down_start_y + up_end_y + 1)).reverse).map
          (fun yi => g.encode ⟨x + r, yi⟩))
    else buf
  let buf := if r ≤ dy then
      write_seq buf (2 * (1 + 2 * r) - 2 + (r - up_end_x))
        (((List.range' (x - down_start_x) (down_start_x + up_end_x + 1)).reverse).map
          (fun xi => g.encode ⟨xi, y - r⟩))
    else buf
  let buf := if r ≤ dx then
      write_seq buf (3 * (1 + 2 * r) - 2 + (r - 1 - down_start_y))
        ((List.range' (y - down_start_y) (down_start_y + up_end_y + 1)).map
          (fun yi => g.encode ⟨x - r, yi⟩))
    else buf
  buf

/-- The `for r in 1..=range` loop of `neighbors`, with the per-ring
`assert_eq!(buffer.len(), 4 * (1 + 2 * r) - 4)`. -/
def neighbors_go (g : AntSimVecImpl) (x y dx dy ux uy : Nat) :
    Nat → List (List (Option Nat)) → Option (List (List (Option Nat)))
  | _, [] => some []
  | r, buf :: rest =>
    if buf.length = 4 * (1 + 2 * r) - 4 then
      (neighbors_go g x y dx dy ux uy (r + 1) rest).map
        (neighbors_ring g x y dx dy ux uy r buf :: ·)
    else
      none

/-- `neighbors` (ant_sim.rs lines 179-224).  Note the source computes `uprange_x`
from `sim.height()` (line 187), an axis slip kept faithfully here; the `usize`
subtractions that can underflow use the wrapping `usub`. -/
def neighbors (g : AntSimVecImpl) (position : Nat)
    (buffers : List (List (Option Nat))) : Option (List (List (Option Nat))) :=
  let range := buffers.length
  let pos := g.decode position
  if (g.encode pos).isSome then
    let x := pos.x
    let y := pos.y
    let downrange_x := if x ≤ range then x else range
    let downrange_y := if y ≤ range then y else range
    let uprange_y := if usub g.height y ≤ range then usub (usub g.height 1) y else range
    let uprange_x := if usub g.width x ≤ range then usub (usub g.height 1) x else range
    neighbors_go g x y downrange_x downrange_y uprange_x uprange_y 1 buffers
  else
    none

/-- `simple_hash2` (ant_sim_ant.rs lines 263-282).  The external
`H: Hasher + Default` (instantiated with `fasthash::mum::Hasher64` at the call
site) is the parameter `hashFn`, giving `finish()` of hashing `(a, b)`; the
xor-shift folding and the `as u8` truncation are the repository's own code. -/
def simple_hash2 (hashFn : Nat → Nat → Nat) (a b : Nat) : Nat :=
  let r := hashFn a b % W64
  let r := r ^^^ (r >>> 32)
  let r := r ^^^ (r >>> 16)
  let r := r ^^^ (r >>> 8)
  r % 256

/-- `dist_of` (ant_sim_ant.rs lines 89-93), with `f64::sqrt` as parameter. -/
def dist_of (sqrtFn : ℚ → ℚ) (a b : ℚ × ℚ) : ℚ :=
  sqrtFn ((a.1 - b.1) * (a.1 - b.1) + (a.2 - b.2) * (a.2 - b.2))

/-- The `(p_food_weight, p_home_weight)` pair of `move_to_next2` (lines 104-107). -/
def p_weights : AntState → ℚ × ℚ
  | .foraging => (1, -1/4)
  | .hauling _ => (-1/4, 1)

/-- The per-arc accumulator of the scoring loops of `move_to_next2`. -/
structure ScoreState where
  p_home : Nat
  p_food : Nat
  count : ℚ
  special_count : Nat
  score : ℚ

/-- One iteration of the inner arc loop of `move_to_next2` (lines 117-141 and
168-192): skip `None` slots, `unwrap` the cell, bump `count`, `continue` on
Blocker, otherwise accumulate and add the running average into `score`.
`u32` accumulators wrap at `2 ^ 32`.  (The source's `if count == 0.0 { break; }`
follows `count += 1.0` and can never fire; it is omitted.) -/
def score_cell_step (onSim : AntSimVecImpl) (st : AntState) (pw : ℚ × ℚ) (Rq : ℚ)
    (buffer : List (Option Nat)) (acc : ScoreState) (p : Nat) : Option ScoreState :=
  (buffer.get? p).bind fun slot =>
    match slot with
    | none => some acc
    | some pos =>
      (onSim.cell pos).map fun cell =>
        let count := acc.count + 1
        match cell with
        | .blocker => { acc with count := count }
        | c =>
          let next :=
            match c with
            | .path pheromone_food pheromone_home =>
                ({ acc with
                    count := count
                    p_home := (acc.p_home + pheromone_home) % W32
                    p_food := (acc.p_food + pheromone_food) % W32 } : ScoreState)
            | .home =>
                { acc with
                    count := count
                    special_count :=
                      (acc.special_count +
                        (match st with | .hauling _ => 1000 | .foraging => 0)) % W32 }
            | .food amount =>
                { acc with
                    count := count
                    special_count :=
                      (acc.special_count +
                        (match st with | .foraging => amount * 8 | .hauling _ => 0)) % W32 }
            | .blocker => { acc with count := count }
          let p_score := (next.p_home : ℚ) * pw.2 + (next.p_food : ℚ) * pw.1
          let avg_score := (p_score + (next.special_count : ℚ)) / count
          { next with score := next.score + avg_score / Rq }

/-- An arc of the scoring loop: fold `score_cell_step` over the slot indices. -/
def score_arc (onSim : AntSimVecImpl) (st : AntState) (pw : ℚ × ℚ) (Rq : ℚ)
    (buffer : List (Option Nat)) (idxs : List Nat) (acc : ScoreState) :
    Option ScoreState :=
  idxs.foldlM (score_cell_step onSim st pw Rq buffer) acc

/-- The ring loop scoring candidate 0 (lines 109-142): ring `r` contributes the
arc of `1 + 4 * r` slots starting at `buffer.len() - r * 2`, indices wrapped
`% buffer.len()`. -/
def candidate0_score (onSim : AntSimVecImpl) (st : AntState) (pw : ℚ × ℚ)
    (bufs : List (List (Option Nat))) : Option ℚ :=
  (List.range bufs.length).foldlM
    (fun score r =>
      (bufs.get? r).bind fun buffer =>
        let start := buffer.length - r * 2
        (score_arc onSim st pw (bufs.length : ℚ) buffer
          ((List.range (1 + r * 4)).map (fun i => (start + i) % buffer.length))
          ⟨0, 0, 0, 0, score⟩).map ScoreState.score)
    0

/-- The ring loop scoring candidate `n ≥ 1` (lines 159-193): ring `r` contributes
the arc of `1 + l_mult * r` slots starting at `n + r * edges_off`. -/
def candidateN_score (onSim : AntSimVecImpl) (st : AntState) (pw : ℚ × ℚ)
    (bufs : List (List (Option Nat))) (n edges_off l_mult : Nat) : Option ℚ :=
  (List.range bufs.length).foldlM
    (fun score r =>
      (bufs.get? r).bind fun buffer =>
        (score_arc onSim st pw (bufs.length : ℚ) buffer
          (List.range' (n + r * edges_off) (1 + l_mult * r))
          ⟨0, 0, 0, 0, score⟩).map ScoreState.score)
    0

/-- The explore/momentum post-processing of a candidate score (lines 145-148 and
197-200): blend with the hashed explore score, multiply by the distance to the
last-position point. -/
def apply_explore (hashFn : Nat → Nat → Nat) (sqrtFn : ℚ → ℚ) (w : ℚ) (seed : Nat)
    (points : List (ℚ × ℚ)) (last_pos : ℚ × ℚ) (n : Nat) (score : ℚ) (pos : Nat) : ℚ :=
  let explore_score : ℚ := (simple_hash2 hashFn pos seed : ℚ)
  let score := score * (1 - w) + w * explore_score
  score * dist_of sqrtFn (points.getD n (0, 0)) last_pos

/-- The candidate-0 selection block (lines 143-155): first slot `Some` means it
becomes the provisional choice; `None` means no choice and score `-∞`
(the bottom of `WithBot ℚ`). -/
def head_candidate (hashFn : Nat → Nat → Nat) (sqrtFn : ℚ → ℚ) (w : ℚ) (seed : Nat)
    (points : List (ℚ × ℚ)) (last_pos : ℚ × ℚ) (score0 : ℚ) :
    Option Nat → Option Nat × WithBot ℚ
  | some first =>
      (some first,
        ((apply_explore hashFn sqrtFn w seed points last_pos 0 score0 first : ℚ) : WithBot ℚ))
  | none => (none, ⊥)

/-- One iteration of the `for n in 1..buffers[0].len()` loop (lines 157-207),
carrying `(edges_off, new_position, new_score)`. -/
def cand_step (hashFn : Nat → Nat → Nat) (sqrtFn : ℚ → ℚ) (w : ℚ) (seed : Nat)
    (points : List (ℚ × ℚ)) (last_pos : ℚ × ℚ) (st : AntState) (pw : ℚ × ℚ)
    (onSim : AntSimVecImpl) (bufs : List (List (Option Nat))) (buf0 : List (Option Nat))
    (acc : Nat × Option Nat × WithBot ℚ) (n : Nat) :
    Option (Nat × Option Nat × WithBot ℚ) :=
  let is_edge := n % 2 = 0
  let l_mult := if is_edge then 4 else 2
  (candidateN_score onSim st pw bufs n acc.1 l_mult).bind fun score =>
    let edges_off := if is_edge then acc.1 + 2 else acc.1
    (buf0.get? n).map fun slot =>
      match slot with
      | some pos =>
        let score := apply_explore hashFn sqrtFn w seed points last_pos n score pos
        if acc.2.2 < (score : WithBot ℚ) then
          (edges_off, some pos, (score : WithBot ℚ))
        else
          (edges_off, acc.2.1, acc.2.2)
      | none => (edges_off, acc.2.1, acc.2.2)

/-- The whole candidate loop over `n = 1, ..., buffers[0].len() - 1`. -/
def candidates_loop (hashFn : Nat → Nat → Nat) (sqrtFn : ℚ → ℚ) (w : ℚ) (seed : Nat)
    (points : List (ℚ × ℚ)) (last_pos : ℚ × ℚ) (st : AntState) (pw : ℚ × ℚ)
    (onSim : AntSimVecImpl) (bufs : List (List (Option Nat))) (buf0 : List (Option Nat))
    (init : Nat × Option Nat × WithBot ℚ) : Option (Nat × Option Nat × WithBot ℚ) :=
  (List.range' 1 (buf0.length - 1)).foldlM
    (cand_step hashFn sqrtFn w seed points last_pos st pw onSim bufs buf0) init

/-- `Ant::move_to_next2` (ant_sim_ant.rs lines 88-209): asserts on the buffers,
runs `neighbors`, scores every candidate direction and moves to the best-scoring
`Some` slot of ring 1 (`new_position.unwrap()` panics — `none` — if no slot was
ever `Some`). -/
def move_to_next2 (hashFn : Nat → Nat → Nat) (sqrtFn : ℚ → ℚ) (seed : Nat)
    (points : List (ℚ × ℚ)) (onSim : AntSimVecImpl) (ant : Ant)
    (buffers : List (List (Option Nat))) : Option (Ant × List (List (Option Nat))) :=
  if 1 ≤ buffers.length ∧ (buffers.headD []).length = 8 then
    (neighbors onSim ant.position buffers).bind fun bufs =>
      let buf0 := bufs.headD []
      let last_pos :=
        (((buf0.zip points).find? (fun np => np.1 == some ant.last_position)).map
          Prod.snd).getD (0, 0)
      let pw := p_weights ant.state
      (candidate0_score onSim ant.state pw bufs).bind fun score0 =>
        (buf0.get? 0).bind fun slot0 =>
          let best := head_candidate hashFn sqrtFn ant.explore_weight seed points
            last_pos score0 slot0
          (candidates_loop hashFn sqrtFn ant.explore_weight seed points last_pos
            ant.state pw onSim bufs buf0 (0, best)).bind fun st =>
            st.2.1.map fun p =>
              ({ ant with last_position := ant.position, position := p }, bufs)
  else
    none

/-- The loop body chain of `AntSimulator::update_ants` (ant_sim.rs lines 108-135),
structurally recursive over the ant list, with the running index `i`, the
destination grid and the visual buffers threaded through. -/
def update_ants_go (hashFn : Nat → Nat → Nat) (sqrtFn : ℚ → ℚ) (ss : AntSimVecImpl)
    (seed haul : Nat) (points : List (ℚ × ℚ)) :
    List Ant → Nat → AntSimVecImpl → List (List (Option Nat)) →
    Option (List Ant × AntSimVecImpl × List (List (Option Nat)))
  | [], _, g, bufs => some ([], g, bufs)
  | a :: rest, i, g, bufs =>
    match ss.cell a.position with
    | none => none
    | some cell =>
      match cell, a.state with
      | .food amount, .foraging =>
        let tf := take_food amount haul
        let a' := { a with state := .hauling tf.1, last_position := a.position }
        (update_ants_go hashFn sqrtFn ss seed haul points rest (i + 1)
          (g.set_cell a.position tf.2) bufs).map (fun r => (a' :: r.1, r.2))
      | .home, .hauling _ =>
        let a' := { a with last_position := a.position, state := .foraging }
        (update_ants_go hashFn sqrtFn ss seed haul points rest (i + 1) g bufs).map
          (fun r => (a' :: r.1, r.2))
      | _, _ =>
        (move_to_next2 hashFn sqrtFn ((seed + i) % W64) points ss a bufs).bind fun ab =>
          (update_ants_go hashFn sqrtFn ss seed haul points rest (i + 1) g ab.2).map
            (fun r => (ab.1 :: r.1, r.2))

/-- `AntSimulator::update_ants` (reads the frozen `self.sim`, writes `update_into`). -/
def update_ants (hashFn : Nat → Nat → Nat) (sqrtFn : ℚ → ℚ) (ss : AntSimVecImpl)
    (seed haul : Nat) (points : List (ℚ × ℚ)) (ants : List Ant) (g : AntSimVecImpl)
    (bufs : List (List (Option Nat))) :
    Option (List Ant × AntSimVecImpl × List (List (Option Nat))) :=
  update_ants_go hashFn sqrtFn ss seed haul points ants 0 g bufs

/-- `AntSimulator::update_ant_trail` (ant_sim.rs lines 158-176): for each old ant,
`unwrap` the destination cell at its (old) position and bump the relevant
pheromone to `u16::MAX - 1` when it is a Path cell. -/
def update_ant_trail : List Ant → AntSimVecImpl → Option AntSimVecImpl
  | [], g => some g
  | a :: rest, g =>
    match g.cell a.position with
    | none => none
    | some cell =>
      let new_cell :=
        match cell, a.state with
        | .path pheromone_food _, .foraging => .path pheromone_food (U16MAX - 1)
        | .path _ pheromone_home, .hauling _ => .path (U16MAX - 1) pheromone_home
        | old, _ => old
      update_ant_trail rest (g.set_cell a.position new_cell)

/-- `AntSimulator::update` (ant_sim.rs lines 89-101): compatibility assertion,
`clone_from_slice` of the ant list (panics — `none` — on length mismatch),
fresh visual buffers, decay, ant update, trail deposit, seed advance
(`wrapping_add`). -/
def AntSimulator.update (hashFn : Nat → Nat → Nat) (sqrtFn : ℚ → ℚ)
    (s into : AntSimulator) : Option AntSimulator :=
  if s.sim.check_compatible into.sim then
    if into.ants.length = s.ants.length then
      let bufs := visual_buffers into.config.visual_range
      (decay_pheromones s.sim into.sim s.config.pheromone_decay_amount).bind fun g1 =>
        (update_ants hashFn sqrtFn s.sim s.seed s.config.food_haul_amount
          s.config.distance_points s.ants g1 bufs).bind fun agb =>
          (update_ant_trail s.ants agb.2.1).map fun g3 =>
            { sim := g3
              ants := agb.1
              seed := (s.seed + s.config.seed_step) % W64
              config := into.config }
    else
      none
  else
    none

/-- The caller-side tick loop (main.rs `main_loop`): update into the scratch
buffer, swap, repeat; collects the state after each tick. -/
def runN (hashFn : Nat → Nat → Nat) (sqrtFn : ℚ → ℚ) :
    Nat → AntSimulator → AntSimulator → Option (List AntSimulator)
  | 0, _, _ => some []
  | n + 1, prev, scratch =>
    (AntSimulator.update hashFn sqrtFn prev scratch).bind fun next =>
      (runN hashFn sqrtFn n next prev).map (next :: ·)

/-- Whether the `(cell, state)` pair falls into the catch-all movement branch of
`update_ants` (neither food pickup nor home drop-off). -/
def move_branch : AntSimCell → AntState → Bool
  | .food _, .foraging => false
  | .home, .hauling _ => false
  | _, _ => true

/-- Whether a cell is not a Path cell (used to state frame conditions). -/
def is_not_path : AntSimCell → Bool
  | .path _ _ => false
  | _ => true

/-- Chebyshev (king-move) distance between grid coordinates. -/
def chebyshev_dist (x y a b : Nat) : Nat :=
  max (max (x - a) (a - x)) (max (y - b) (b - y))

/-- Modelled from the spec (claim C2's wording): the number of true in-bounds
8-connected cells at Chebyshev distance `r` from `(x, y)` in a `w × h` grid. -/
def true_ring_count (w h x y r : Nat) : Nat :=
  ((List.range w).map
    (fun a => ((List.range h).filter (fun b => chebyshev_dist x y a b = r)).length)).foldl
    (· + ·) 0

/-! ## Helper lemmas about the grid operations -/

theorem get?_set {α : Type} (l : List α) (i j : Nat) (a : α) :
    (l.set i a).get? j = if i = j ∧ j < l.length then some a else l.get? j := by
  induction l generalizing i j with
  | nil => simp
  | cons x xs ih =>
    cases i with
    | zero =>
      cases j with
      | zero => simp
      | succ j => simp
    | succ i =>
      cases j with
      | zero => simp
      | succ j =>
        simpa [List.set, Nat.succ_lt_succ_iff] using ih i j

theorem cell_set_cell (g : AntSimVecImpl) (i j : Nat) (c : AntSimCell) :
    (g.set_cell i c).cell j =
      if i = j ∧ j < g.contains.length then some ((AntSimCellImpl.from_cell c).to_cell)
      else g.cell j := by
  simp only [AntSimVecImpl.cell, AntSimVecImpl.set_cell, get?_set]
  split <;> simp

theorem set_cell_length (g : AntSimVecImpl) (i : Nat) (c : AntSimCell) :
    (g.set_cell i c).contains.length = g.contains.length := by
  simp [AntSimVecImpl.set_cell]

theorem cell_some_lt {g : AntSimVecImpl} {p : Nat} {c : AntSimCell}
    (h : g.cell p = some c) : p < g.contains.length := by
  simp only [AntSimVecImpl.cell, Option.map_eq_some'] at h
  obtain ⟨ci, hci, -⟩ := h
  exact List.get?_eq_some.mp hci |>.1

theorem to_cell_from_cell_path {f h : Nat} (hf : f ≠ U16MAX) (hh : h ≠ U16MAX) :
    (AntSimCellImpl.from_cell (.path f h)).to_cell = .path f h := by
  simp [AntSimCellImpl.from_cell, AntSimCellImpl.to_cell, hf, hh]

theorem to_cell_from_cell_nonpath {c : AntSimCell} (hc : is_not_path c = true) :
    (AntSimCellImpl.from_cell c).to_cell = c := by
  cases c <;> simp_all [AntSimCellImpl.from_cell, AntSimCellImpl.to_cell, is_not_path, U16MAX]

theorem to_cell_path_inv {ci : AntSimCellImpl} {f h : Nat} (hc : ci.to_cell = .path f h) :
    ci.p1 = f ∧ ci.p2 = h ∧ f ≠ U16MAX ∧ h ≠ U16MAX := by
  unfold AntSimCellImpl.to_cell at hc
  split at hc
  · simp at hc
  · split at hc
    · split at hc <;> simp at hc
    · rename_i h2 h1
      obtain ⟨rfl, rfl⟩ := AntSimCell.path.injEq .. |>.mp hc.symm |>.imp Eq.symm Eq.symm
      exact ⟨rfl, rfl, fun h => h1 h, fun h => h2 h⟩

theorem check_compatible_iff {a b : AntSimVecImpl} :
    a.check_compatible b = true ↔
      a.contains.length = b.contains.length ∧ a.height = b.height ∧ a.width = b.width := by
  simp [AntSimVecImpl.check_compatible, and_assoc]

theorem decay_cell_map_snd (d : Nat) (c : AntSimCell) (p : Nat) :
    (decay_cell_map d (c, p)).2 = p := by
  cases c <;> rfl

/-! ## Characterisation of the decay pass -/

theorem decay_fold_get? (d : Nat) (xs : List AntSimCellImpl) :
    ∀ (k : Nat) (o : AntSimVecImpl) (j : Nat),
      ((((xs.enumFrom k).map (fun ic => (ic.2.to_cell, ic.1))).map
          (decay_cell_map d)).foldl (fun g cp => g.set_cell cp.2 cp.1) o).contains.get? j =
        if k ≤ j ∧ j - k < xs.length ∧ j < o.contains.length then
          (xs.get? (j - k)).map
            (fun ci => AntSimCellImpl.from_cell (decay_cell_map d (ci.to_cell, j)).1)
        else o.contains.get? j := by
  induction xs with
  | nil =>
    intro k o j
    simp only [List.enumFrom, List.map_nil, List.foldl_nil, List.length_nil]
    rw [if_neg]
    omega
  | cons c rest ih =>
    intro k o j
    have hstep : List.enumFrom k (c :: rest) = (k, c) :: List.enumFrom (k + 1) rest := rfl
    rw [hstep]
    simp only [List.map_cons, List.foldl_cons]
    have hsnd := decay_cell_map_snd d c.to_cell k
    rw [hsnd]
    rw [ih (k + 1) (o.set_cell k (decay_cell_map d (c.to_cell, k)).1) j]
    rw [set_cell_length]
    by_cases h1 : k + 1 ≤ j ∧ j - (k + 1) < rest.length ∧ j < o.contains.length
    · rw [if_pos h1, if_pos (by simp only [List.length_cons]; omega :
        k ≤ j ∧ j - k < (c :: rest).length ∧ j < o.contains.length)]
      have : j - k = (j - (k + 1)) + 1 := by omega
      rw [this, List.get?_cons_succ]
    · rw [if_neg h1]
      simp only [AntSimVecImpl.set_cell, get?_set]
      by_cases h2 : k = j ∧ j < o.contains.length
      · rw [if_pos h2,
          if_pos (by simp only [List.length_cons]; omega :
            k ≤ j ∧ j - k < (c :: rest).length ∧ j < o.contains.length)]
        have : j - k = 0 := by omega
        rw [this, List.get?_cons_zero, Option.map_some']
        obtain ⟨rfl, -⟩ := h2
        rfl
      · rw [if_neg h2, if_neg (by simp only [List.length_cons]; omega)]

theorem decay_cell_char {from_ o g' : AntSimVecImpl} {d : Nat}
    (hd : decay_pheromones from_ o d = some g') (j : Nat) :
    g'.contains.get? j =
      if j < from_.contains.length ∧ j < o.contains.length then
        (from_.contains.get? j).map
          (fun ci => AntSimCellImpl.from_cell (decay_cell_map d (ci.to_cell, j)).1)
      else o.contains.get? j := by
  unfold decay_pheromones AntSimVecImpl.cells at hd
  split at hd
  · rw [Option.map_some'] at hd
    obtain rfl := (Option.some.injEq .. |>.mp hd).symm
    have := decay_fold_get? d from_.contains 0 o j
    simpa [List.enum] using this
  · simp at hd

theorem decay_length {from_ o g' : AntSimVecImpl} {d : Nat}
    (hd : decay_pheromones from_ o d = some g') :
    g'.contains.length = o.contains.length := by
  have hfold : ∀ (l : List (AntSimCell × Nat)) (o' : AntSimVecImpl),
      ((l.foldl (fun g cp => g.set_cell cp.2 cp.1) o')).contains.length =
        o'.contains.length := by
    intro l
    induction l with
    | nil => intro o'; rfl
    | cons x xs ih =>
      intro o'
      rw [List.foldl_cons, ih, set_cell_length]
  unfold decay_pheromones at hd
  rcases Option.map_eq_some'.mp hd with ⟨cs, -, rfl⟩
  exact hfold _ o

/-- C4: the decay pass of `update` writes, for every Path cell of the source grid,
the same cell into the destination grid with both pheromone fields reduced by
`config.pheromone_decay_amount` saturating at zero (never wrapping), and writes
every non-Path cell through unchanged. -/
theorem C4_decay_pass (from_ o g' : AntSimVecImpl) (d : Nat)
    (hwf : from_.WF)
    (hlen : o.contains.length = from_.contains.length)
    (hd : decay_pheromones from_ o d = some g') (p : Nat) :
    (∀ f h, from_.cell p = some (.path f h) → g'.cell p = some (.path (f - d) (h - d)))
    ∧ (∀ c, from_.cell p = some c → is_not_path c = true → g'.cell p = some c) := by
  have hchar := decay_cell_char hd p
  constructor
  · intro f h hc
    have hlt : p < from_.contains.length := cell_some_lt hc
    simp only [AntSimVecImpl.cell, Option.map_eq_some'] at hc
    obtain ⟨ci, hci, hto⟩ := hc
    obtain ⟨hp1, hp2, hf, hh⟩ := to_cell_path_inv hto
    have hband := hwf ci (List.get?_mem hci)
    simp only [AntSimVecImpl.cell]
    rw [hchar, if_pos ⟨hlt, by omega⟩, hci, Option.map_some', hto]
    simp only [decay_cell_map, decay_path, NonMaxU16.dec_by, Option.map_some']
    rw [to_cell_from_cell_path (by unfold U16MAX at hband hf ⊢; omega)
      (by unfold U16MAX at hband hh ⊢; omega)]
  · intro c hc hnp
    have hlt : p < from_.contains.length := cell_some_lt hc
    simp only [AntSimVecImpl.cell, Option.map_eq_some'] at hc
    obtain ⟨ci, hci, hto⟩ := hc
    simp only [AntSimVecImpl.cell]
    rw [hchar, if_pos ⟨hlt, by omega⟩, hci, Option.map_some', hto]
    have hkeep : decay_cell_map d (c, p) = (c, p) := by
      cases c <;> simp_all [decay_cell_map, is_not_path]
    rw [hkeep, Option.map_some']
    rw [to_cell_from_cell_nonpath hnp]

/-- Witness for C4: decaying the Path cell with both pheromones 5 by decay
amount 10 yields pheromone 0 (saturation, no wraparound). -/
theorem C4_decay_pass_witness :
    (⟨[⟨0, 0⟩], 1, 1⟩ : AntSimVecImpl).cell 0 = some (.path (5 - 10) (5 - 10)) :=
  (C4_decay_pass ⟨[⟨5, 5⟩], 1, 1⟩ ⟨[⟨9, 9⟩], 1, 1⟩ ⟨[⟨0, 0⟩], 1, 1⟩ 10
    (by decide) (by decide) (by decide) 0).1 5 5 (by decide)

/-! ## Helper lemmas about the trail pass -/

theorem trail_cell_preserved (p : Nat) :
    ∀ (ants : List Ant) (g g' : AntSimVecImpl),
      update_ant_trail ants g = some g' → (∀ a ∈ ants, a.position ≠ p) →
      g'.cell p = g.cell p := by
  intro ants
  induction ants with
  | nil =>
    intro g g' h hp
    cases h
    rfl
  | cons a rest ih =>
    intro g g' h hp
    cases hcell : g.cell a.position with
    | none =>
      simp only [update_ant_trail, hcell] at h
      exact Option.noConfusion h
    | some cell =>
      simp only [update_ant_trail, hcell] at h
      rw [ih _ _ h (fun b hb => hp b (List.mem_cons_of_mem _ hb))]
      rw [cell_set_cell, if_neg]
      intro hcon
      exact hp a (List.mem_cons_self ..) hcon.1

theorem trail_cell_nonpath (p : Nat) (c : AntSimCell) (hnp : is_not_path c = true) :
    ∀ (ants : List Ant) (g g' : AntSimVecImpl),
      update_ant_trail ants g = some g' → g.cell p = some c → g'.cell p = some c := by
  intro ants
  induction ants with
  | nil =>
    intro g g' h hc
    cases h
    exact hc
  | cons a rest ih =>
    intro g g' h hc
    by_cases hap : a.position = p
    · subst hap
      simp only [update_ant_trail, hc] at h
      apply ih _ _ h
      rw [cell_set_cell, if_pos ⟨rfl, cell_some_lt hc⟩]
      cases c <;> cases hst : a.state <;> simp_all [is_not_path] <;>
        exact to_cell_from_cell_nonpath rfl
    · cases hcell : g.cell a.position with
      | none =>
        simp only [update_ant_trail, hcell] at h
        exact Option.noConfusion h
      | some cell =>
        simp only [update_ant_trail, hcell] at h
        apply ih _ _ h
        rw [cell_set_cell, if_neg (fun hcon => hap hcon.1)]
        exact hc

theorem trail_append (xs ys : List Ant) :
    ∀ g, update_ant_trail (xs ++ ys) g =
      (update_ant_trail xs g).bind (update_ant_trail ys) := by
  induction xs with
  | nil => intro g; simp [update_ant_trail]
  | cons a rest ih =>
    intro g
    cases hcell : g.cell a.position with
    | none => simp [update_ant_trail, hcell]
    | some cell => simp [update_ant_trail, hcell, ih]

/-- C6: the trail-deposit pass, for each ant of the old ant list at its old
position: if the destination grid holds a Path cell there, it sets
`pheromone_home` to `MAX - 1` when the ant is Foraging and `pheromone_food` to
`MAX - 1` when the ant is Hauling, leaving the other pheromone field unchanged;
cells that are not Path, and all positions with no ant, are left unchanged. -/
theorem C6_trail_deposit (ants : List Ant) (g g' : AntSimVecImpl)
    (h : update_ant_trail ants g = some g') :
    (∀ p, (∀ a ∈ ants, a.position ≠ p) → g'.cell p = g.cell p)
    ∧ (∀ p c, g.cell p = some c → is_not_path c = true → g'.cell p = some c)
    ∧ (∀ l1 a l2, ants = l1 ++ a :: l2 →
        (∀ b ∈ l1 ++ l2, b.position ≠ a.position) →
        ∀ f hph, g.cell a.position = some (.path f hph) →
          g'.cell a.position = some (match a.state with
            | .foraging => AntSimCell.path f (U16MAX - 1)
            | .hauling _ => AntSimCell.path (U16MAX - 1) hph)) := by
  refine ⟨fun p hp => trail_cell_preserved p ants g g' h hp,
         fun p c hc hnp => trail_cell_nonpath p c hnp ants g g' h hc,
         fun l1 a l2 hsplit hb f hph hc => ?_⟩
  subst hsplit
  rw [trail_append] at h
  cases h1 : update_ant_trail l1 g with
  | none => rw [h1] at h; cases h
  | some g1 =>
    rw [h1] at h
    simp only [Option.some_bind] at h
    have hg1 : g1.cell a.position = some (.path f hph) := by
      rw [trail_cell_preserved a.position l1 g g1 h1
        (fun b hb1 => hb b (List.mem_append_left _ hb1))]
      exact hc
    simp only [update_ant_trail, hg1] at h
    have hfin := trail_cell_preserved a.position l2 _ g' h
      (fun b hb2 => hb b (List.mem_append_right _ hb2))
    rw [hfin, cell_set_cell, if_pos ⟨rfl, cell_some_lt hg1⟩]
    have hinv : f ≠ U16MAX ∧ hph ≠ U16MAX := by
      simp only [AntSimVecImpl.cell, Option.map_eq_some'] at hg1
      obtain ⟨ci, -, hto⟩ := hg1
      obtain ⟨-, -, hf, hh⟩ := to_cell_path_inv hto
      exact ⟨hf, hh⟩
    cases hst : a.state <;>
      simp only [] <;>
      rw [to_cell_from_cell_path (by first | exact hinv.1 | decide)
        (by first | exact hinv.2 | decide)]

/-- Witness for C6: a Foraging ant on a Path cell with pheromones (7, 9) leaves
the food pheromone at 7 and bumps the home pheromone to 65534. -/
theorem C6_trail_deposit_witness :
    (⟨[⟨7, 65534⟩], 1, 1⟩ : AntSimVecImpl).cell 0 = some (.path 7 (U16MAX - 1)) :=
  (C6_trail_deposit [⟨0, 0, .foraging, 0⟩] ⟨[⟨7, 9⟩], 1, 1⟩ ⟨[⟨7, 65534⟩], 1, 1⟩
    (by decide)).2.2 [] ⟨0, 0, .foraging, 0⟩ [] rfl (by simp) 7 9 (by decide)

/-- C5: during the ant-update pass, a Foraging ant standing on `Food amount`
transitions to `Hauling (min amount food_haul_amount)`, stands still
(`last_position := position`), and the destination cell becomes
`Food (amount - food_haul_amount)` when `amount > food_haul_amount` and an empty
Path cell (both pheromones zero) otherwise; a Hauling ant standing on Home
transitions to Foraging and stands still with no cell mutation. -/
theorem C5_pickup_dropoff (hashFn : Nat → Nat → Nat) (sqrtFn : ℚ → ℚ)
    (ss : AntSimVecImpl) (seed haul : Nat) (points : List (ℚ × ℚ)) (a : Ant)
    (g : AntSimVecImpl) (bufs : List (List (Option Nat)))
    (hp : a.position < g.contains.length) :
    (∀ amount, ss.cell a.position = some (.food amount) → a.state = .foraging →
      update_ants hashFn sqrtFn ss seed haul points [a] g bufs =
        some ([{ a with state := .hauling (min amount haul), last_position := a.position }],
          g.set_cell a.position (if haul < amount then .food (amount - haul) else .path 0 0),
          bufs)
      ∧ (g.set_cell a.position
          (if haul < amount then .food (amount - haul) else .path 0 0)).cell a.position =
            some (if haul < amount then .food (amount - haul) else .path 0 0))
    ∧ (∀ amt, ss.cell a.position = some .home → a.state = .hauling amt →
      update_ants hashFn sqrtFn ss seed haul points [a] g bufs =
        some ([{ a with last_position := a.position, state := .foraging }], g, bufs)) := by
  constructor
  · intro amount hc hst
    constructor
    · simp only [update_ants, update_ants_go, hc, hst, take_food]
      split
      · rename_i hlt
        simp only [Option.map_some']
        have hmin : min amount haul = haul := by omega
        rw [hmin]
      · rename_i hge
        simp only [Option.map_some']
        have hmin : min amount haul = amount := by omega
        rw [hmin]
    · rw [cell_set_cell, if_pos ⟨rfl, hp⟩]
      split
      · rfl
      · rw [to_cell_from_cell_path (by decide) (by decide)]
  · intro amt hc hst
    simp only [update_ants, update_ants_go, hc, hst, Option.map_some']

/-- Witness for C5: the spec's example — a Foraging ant on `Food 5` with haul
amount 20 becomes `Hauling (min 5 20)` and the cell becomes an empty Path. -/
theorem C5_pickup_dropoff_witness :
    update_ants (fun _ _ => 0) (fun _ => 1) ⟨[⟨5, 65535⟩], 1, 1⟩ 0 20 []
        [⟨0, 0, .foraging, 0⟩] ⟨[⟨1, 2⟩], 1, 1⟩ [] =
      some ([{ (⟨0, 0, .foraging, 0⟩ : Ant) with
                state := .hauling (min 5 20), last_position := 0 }],
        (⟨[⟨1, 2⟩], 1, 1⟩ : AntSimVecImpl).set_cell 0
          (if 20 < 5 then .food (5 - 20) else .path 0 0), [])
    ∧ ((⟨[⟨1, 2⟩], 1, 1⟩ : AntSimVecImpl).set_cell 0
        (if 20 < 5 then .food (5 - 20) else .path 0 0)).cell 0 =
          some (if 20 < 5 then .food (5 - 20) else .path 0 0) :=
  (C5_pickup_dropoff (fun _ _ => 0) (fun _ => 1) ⟨[⟨5, 65535⟩], 1, 1⟩ 0 20 []
    ⟨0, 0, .foraging, 0⟩ ⟨[⟨1, 2⟩], 1, 1⟩ [] (by decide)).1 5 (by decide) (by decide)

/-! ## Helper lemmas about the movement step -/

theorem foldlM_opt_inv {α β : Type} (f : β → α → Option β) (P : β → Prop)
    (hf : ∀ b a b', P b → f b a = some b' → P b') :
    ∀ (l : List α) (b b' : β), P b → l.foldlM f b = some b' → P b' := by
  intro l
  induction l with
  | nil =>
    intro b b' hb h
    simp only [List.foldlM_nil] at h
    obtain rfl : b = b' := by injection h
    exact hb
  | cons x xs ih =>
    intro b b' hb h
    rw [List.foldlM_cons] at h
    obtain ⟨b2, h2, h3⟩ := Option.bind_eq_some.mp h
    exact ih b2 b' (hf b x b2 hb h2) h3

theorem neighbors_ring_skip (g : AntSimVecImpl) (x y r : Nat) (hr : 1 ≤ r)
    (buf : List (Option Nat)) : neighbors_ring g x y 0 0 0 0 r buf = buf := by
  have h0 : ¬(r ≤ 0) := by omega
  simp [neighbors_ring, h0]

theorem neighbors_go_all_skip (g : AntSimVecImpl) (x y : Nat) :
    ∀ (bufs : List (List (Option Nat))) (r0 : Nat), 1 ≤ r0 →
      (∀ i buf, bufs.get? i = some buf → buf.length = 8 * (r0 + i)) →
      neighbors_go g x y 0 0 0 0 r0 bufs = some bufs := by
  intro bufs
  induction bufs with
  | nil => intro r0 _ _; rfl
  | cons buf rest ih =>
    intro r0 h1 h2
    have hlen : buf.length = 8 * r0 := by simpa using h2 0 buf rfl
    have hrest : ∀ i b, rest.get? i = some b → b.length = 8 * (r0 + 1 + i) := by
      intro i b hb
      have := h2 (i + 1) b (by simpa using hb)
      omega
    unfold neighbors_go
    rw [if_pos (by omega), ih (r0 + 1) (by omega) hrest]
    rw [neighbors_ring_skip g x y r0 h1 buf]
    rfl

theorem visual_buffers_get? (range i : Nat) :
    (visual_buffers range).get? i =
      if i < range then some (List.replicate ((i + 1) * 8) (none : Option Nat))
      else none := by
  simp only [visual_buffers, List.get?_map]
  by_cases h : i < range
  · rw [List.get?_range h, if_pos h, Option.map_some']
  · rw [if_neg h, List.get?_eq_none.mpr (by simpa using Nat.le_of_not_lt h)]
    rfl

theorem neighbors_1x1 (g : AntSimVecImpl) (hw : g.width = 1) (hh : g.height = 1)
    (range : Nat) (hr : 1 ≤ range) :
    neighbors g 0 (visual_buffers range) = some (visual_buffers range) := by
  have hvlen : (visual_buffers range).length = range := by
    simp [visual_buffers]
  have hu10 : usub 1 0 = 1 := by decide
  have hu0 : usub (usub 1 1) 0 = 0 := by decide
  have hdec : g.decode 0 = ⟨0, 0⟩ := by
    simp [AntSimVecImpl.decode, hw]
  have henc : g.encode ⟨0, 0⟩ = some 0 := by
    simp [AntSimVecImpl.encode, hw, hh]
  have hsizes : ∀ i buf, (visual_buffers range).get? i = some buf →
      buf.length = 8 * (1 + i) := by
    intro i buf hbuf
    rw [visual_buffers_get?] at hbuf
    split at hbuf
    · obtain rfl : List.replicate ((i + 1) * 8) (none : Option Nat) = buf := by
        injection hbuf
      simp [List.length_replicate]
      omega
    · exact Option.noConfusion hbuf
  simp only [neighbors, hdec, henc, Option.isSome_some, if_true, hw, hh, hvlen, hu10, hu0]
  have hds : (if (0 : Nat) ≤ range then (0 : Nat) else range) = 0 := if_pos (Nat.zero_le range)
  have hus : (if 1 ≤ range then (0 : Nat) else range) = 0 := if_pos hr
  simp only [hds, hus]
  exact neighbors_go_all_skip g 0 0 (visual_buffers range) 1 (by omega) hsizes

theorem move_1x1_none (hashFn : Nat → Nat → Nat) (sqrtFn : ℚ → ℚ) (seed : Nat)
    (points : List (ℚ × ℚ)) (g : AntSimVecImpl) (hw : g.width = 1) (hh : g.height = 1)
    (a : Ant) (hpos : a.position = 0) (range : Nat) (hr : 1 ≤ range) :
    move_to_next2 hashFn sqrtFn seed points g a (visual_buffers range) = none := by
  have hvlen : (visual_buffers range).length = range := by
    simp [visual_buffers]
  have hhead : (visual_buffers range).headD [] = List.replicate 8 none := by
    obtain ⟨m, rfl⟩ : ∃ m, range = m + 1 := ⟨range - 1, by omega⟩
    simp [visual_buffers, List.range_succ_eq_map]
  simp only [move_to_next2, hpos, neighbors_1x1 g hw hh range hr, Option.some_bind, hhead]
  rw [if_pos ⟨by omega, by simp⟩]
  cases hc0 : candidate0_score g a.state (p_weights a.state) (visual_buffers range) with
  | none => rfl
  | some score0 =>
    simp only [Option.some_bind]
    have h0 : (List.replicate 8 (none : Option Nat)).get? 0 = some none := rfl
    rw [h0]
    simp only [Option.some_bind, head_candidate]
    cases hloop : candidates_loop hashFn sqrtFn a.explore_weight seed points
        ((Option.map Prod.snd (List.find? (fun np => np.1 == some a.last_position)
          ((List.replicate 8 (none : Option Nat)).zip points))).getD (0, 0))
        a.state (p_weights a.state) g (visual_buffers range) (List.replicate 8 none)
        (0, none, ⊥) with
    | none => rfl
    | some st =>
      have hP : st.2.1 = none := by
        refine foldlM_opt_inv _ (fun b => b.2.1 = none) ?_ _ _ _ rfl hloop
        intro b n b' hb hstep
        obtain ⟨score, hsc, hmap⟩ := Option.bind_eq_some.mp hstep
        obtain ⟨slot, hslot, heq⟩ := Option.map_eq_some'.mp hmap
        obtain rfl : slot = none := List.eq_of_mem_replicate (List.get?_mem hslot)
        rw [← heq]
        exact hb
      simp only [Option.some_bind, hP, Option.map_none']

/-- C9: if an ant must move (neither food pickup nor home drop-off applies) and
every slot of its ring-1 neighbour buffer is `None` — as on a 1×1 grid, where
`neighbors` never writes a slot — `move_to_next2` reaches `new_position.unwrap()`
with `None` and the whole `update` call fails (`none`, the model of the panic)
rather than leaving the ant in place. -/
theorem C9_update_panics_on_1x1 (hashFn : Nat → Nat → Nat) (sqrtFn : ℚ → ℚ)
    (s into : AntSimulator) (c : AntSimCellImpl) (a : Ant)
    (hg : s.sim = ⟨[c], 1, 1⟩) (ha : s.ants = [a]) (hpos : a.position = 0)
    (hmv : move_branch c.to_cell a.state = true)
    (hcomp : s.sim.check_compatible into.sim = true)
    (hlen : into.ants.length = 1)
    (hr : 1 ≤ into.config.visual_range) :
    AntSimulator.update hashFn sqrtFn s into = none := by
  obtain ⟨g1, hg1⟩ :
      ∃ g1, decay_pheromones s.sim into.sim s.config.pheromone_decay_amount = some g1 := by
    unfold decay_pheromones AntSimVecImpl.cells
    rw [show s.sim.check_invariant = true from by rw [hg]; rfl]
    exact ⟨_, rfl⟩
  have hcell : s.sim.cell a.position = some c.to_cell := by
    rw [hg, hpos]
    rfl
  have hmove : move_to_next2 hashFn sqrtFn ((s.seed + 0) % W64) s.config.distance_points
      s.sim a (visual_buffers into.config.visual_range) = none :=
    move_1x1_none _ _ _ _ s.sim (by rw [hg]) (by rw [hg]) a hpos _ hr
  have hga : update_ants hashFn sqrtFn s.sim s.seed s.config.food_haul_amount
      s.config.distance_points [a] g1 (visual_buffers into.config.visual_range) = none := by
    simp only [update_ants, update_ants_go, hcell]
    cases hct : c.to_cell <;> cases hst : a.state <;>
      simp_all [move_branch, hmove]
  simp only [AntSimulator.update, hcomp, if_true, ha, hlen, List.length_cons,
    List.length_nil, hg1, Option.some_bind, hga, Option.none_bind]

/-- Witness for C9: a Foraging ant on the Path cell of a 1×1 grid makes the
whole update fail. -/
theorem C9_update_panics_on_1x1_witness :
    AntSimulator.update (fun _ _ => 0) (fun _ => 1)
      ⟨⟨[⟨0, 0⟩], 1, 1⟩, [⟨0, 0, .foraging, 0⟩], 3, ⟨[(3, 0)], 20, 1, 5, 1⟩⟩
      ⟨⟨[⟨0, 0⟩], 1, 1⟩, [⟨0, 0, .foraging, 0⟩], 3, ⟨[(3, 0)], 20, 1, 5, 1⟩⟩ = none :=
  C9_update_panics_on_1x1 (fun _ _ => 0) (fun _ => 1)
    ⟨⟨[⟨0, 0⟩], 1, 1⟩, [⟨0, 0, .foraging, 0⟩], 3, ⟨[(3, 0)], 20, 1, 5, 1⟩⟩
    ⟨⟨[⟨0, 0⟩], 1, 1⟩, [⟨0, 0, .foraging, 0⟩], 3, ⟨[(3, 0)], 20, 1, 5, 1⟩⟩
    ⟨0, 0⟩ ⟨0, 0, .foraging, 0⟩ rfl rfl rfl (by decide) (by decide) rfl (by decide)

/-- Evaluation of `move_to_next2` at the C1 scenario (all-zero scores): the ant
moves to the first ring-1 slot, position 6. -/
theorem C1_move_eval :
    move_to_next2 (fun _ _ => 0) (fun _ => 1) 0 (List.replicate 8 (3, 0))
        ⟨[⟨65535, 0⟩, ⟨0, 0⟩, ⟨65535, 0⟩, ⟨65535, 0⟩, ⟨0, 0⟩, ⟨65535, 0⟩, ⟨65535, 0⟩,
          ⟨65535, 0⟩, ⟨65535, 0⟩], 3, 3⟩
        ⟨4, 4, .foraging, 0⟩ (visual_buffers 1) =
      some (⟨6, 4, .foraging, 0⟩,
        [[some 6, some 7, some 8, some 5, some 2, some 1, some 0, some 3]]) := by
  have hnb : neighbors ⟨[⟨65535, 0⟩, ⟨0, 0⟩, ⟨65535, 0⟩, ⟨65535, 0⟩, ⟨0, 0⟩, ⟨65535, 0⟩,
      ⟨65535, 0⟩, ⟨65535, 0⟩, ⟨65535, 0⟩], 3, 3⟩ 4 (visual_buffers 1) =
      some [[some 6, some 7, some 8, some 5, some 2, some 1, some 0, some 3]] := by decide
  have hc0 : candidate0_score ⟨[⟨65535, 0⟩, ⟨0, 0⟩, ⟨65535, 0⟩, ⟨65535, 0⟩, ⟨0, 0⟩, ⟨65535, 0⟩,
      ⟨65535, 0⟩, ⟨65535, 0⟩, ⟨65535, 0⟩], 3, 3⟩ AntState.foraging (p_weights .foraging)
      [[some 6, some 7, some 8, some 5, some 2, some 1, some 0, some 3]] = some 0 := by decide
  have hn1 : candidateN_score ⟨[⟨65535, 0⟩, ⟨0, 0⟩, ⟨65535, 0⟩, ⟨65535, 0⟩, ⟨0, 0⟩, ⟨65535, 0⟩,
      ⟨65535, 0⟩, ⟨65535, 0⟩, ⟨65535, 0⟩], 3, 3⟩ AntState.foraging (p_weights .foraging)
      [[some 6, some 7, some 8, some 5, some 2, some 1, some 0, some 3]] 1 0 2 = some 0 := by
    decide
  have hn2 : candidateN_score ⟨[⟨65535, 0⟩, ⟨0, 0⟩, ⟨65535, 0⟩, ⟨65535, 0⟩, ⟨0, 0⟩, ⟨65535, 0⟩,
      ⟨65535, 0⟩, ⟨65535, 0⟩, ⟨65535, 0⟩], 3, 3⟩ AntState.foraging (p_weights .foraging)
      [[some 6, some 7, some 8, some 5, some 2, some 1, some 0, some 3]] 2 0 4 = some 0 := by
    decide
  have hn3 : candidateN_score ⟨[⟨65535, 0⟩, ⟨0, 0⟩, ⟨65535, 0⟩, ⟨65535, 0⟩, ⟨0, 0⟩, ⟨65535, 0⟩,
      ⟨65535, 0⟩, ⟨65535, 0⟩, ⟨65535, 0⟩], 3, 3⟩ AntState.foraging (p_weights .foraging)
      [[some 6, some 7, some 8, some 5, some 2, some 1, some 0, some 3]] 3 2 2 = some 0 := by
    decide
  have hn4 : candidateN_score ⟨[⟨65535, 0⟩, ⟨0, 0⟩, ⟨65535, 0⟩, ⟨65535, 0⟩, ⟨0, 0⟩, ⟨65535, 0⟩,
      ⟨65535, 0⟩, ⟨65535, 0⟩, ⟨65535, 0⟩], 3, 3⟩ AntState.foraging (p_weights .foraging)
      [[some 6, some 7, some 8, some 5, some 2, some 1, some 0, some 3]] 4 2 4 = some 0 := by
    decide
  have hn5 : candidateN_score ⟨[⟨65535, 0⟩, ⟨0, 0⟩, ⟨65535, 0⟩, ⟨65535, 0⟩, ⟨0, 0⟩, ⟨65535, 0⟩,
      ⟨65535, 0⟩, ⟨65535, 0⟩, ⟨65535, 0⟩], 3, 3⟩ AntState.foraging (p_weights .foraging)
      [[some 6, some 7, some 8, some 5, some 2, some 1, some 0, some 3]] 5 4 2 = some 0 := by
    norm_num [candidateN_score, score_arc, score_cell_step, List.range', AntSimVecImpl.cell,
      AntSimCellImpl.to_cell, U16MAX, W32, p_weights, List.foldlM]
  have hn6 : candidateN_score ⟨[⟨65535, 0⟩, ⟨0, 0⟩, ⟨65535, 0⟩, ⟨65535, 0⟩, ⟨0, 0⟩, ⟨65535, 0⟩,
      ⟨65535, 0⟩, ⟨65535, 0⟩, ⟨65535, 0⟩], 3, 3⟩ AntState.foraging (p_weights .foraging)
      [[some 6, some 7, some 8, some 5, some 2, some 1, some 0, some 3]] 6 4 4 = some 0 := by
    decide
  have hn7 : candidateN_score ⟨[⟨65535, 0⟩, ⟨0, 0⟩, ⟨65535, 0⟩, ⟨65535, 0⟩, ⟨0, 0⟩, ⟨65535, 0⟩,
      ⟨65535, 0⟩, ⟨65535, 0⟩, ⟨65535, 0⟩], 3, 3⟩ AntState.foraging (p_weights .foraging)
      [[some 6, some 7, some 8, some 5, some 2, some 1, some 0, some 3]] 7 6 2 = some 0 := by
    decide
  have happ : ∀ (points : List (ℚ × ℚ)) (lp : ℚ × ℚ) (n : Nat) (score : ℚ) (p : Nat),
      apply_explore (fun _ _ => 0) (fun _ => 1) 0 0 points lp n score p = score := by
    intro points lp n score p
    simp [apply_explore, dist_of, simple_hash2]
  have hlt : ¬(((0 : ℚ) : WithBot ℚ) < ((0 : ℚ) : WithBot ℚ)) := by simp
  simp only [move_to_next2, hnb, Option.some_bind]
  rw [if_pos (by decide :
    1 ≤ (visual_buffers 1).length ∧ ((visual_buffers 1).headD []).length = 8)]
  simp only [List.headD]
  rw [show (((([some 6, some 7, some 8, some 5, some 2, some 1, some 0, some 3].zip
      (List.replicate 8 ((3 : ℚ), (0 : ℚ)))).find? (fun np => np.1 == some (4 : Nat))).map
      Prod.snd).getD (0, 0)) = ((0 : ℚ), (0 : ℚ)) from by decide]
  simp only [hc0, Option.some_bind, candidates_loop, head_candidate]
  rw [show List.range' 1 ([some 6, some 7, some 8, some 5, some 2, some 1, some 0,
    some 3].length - 1) = [1, 2, 3, 4, 5, 6, 7] from rfl]
  simp [List.foldlM_cons, List.foldlM_nil, cand_step, hn1, hn2, hn3, hn4, hn5, hn6, hn7,
    happ, hlt]

/-- C1 (counterexample): on a 3×3 grid whose centre (1, 1) holds a Path cell,
with every neighbour a Blocker except the open Path cell at (1, 0) (position 1),
a Foraging ant at the centre with explore weight 0 moves to position 6 = (0, 2)
— a Blocker — not to the open Path cell: all candidate scores are equal (zero),
so the first ring-1 slot wins, Blocker or not; nothing in the selection excludes
Blocker destinations.  With explore weight 0 and all-zero pheromones every `f64`
operation of the source's scoring is exact (products with 0.0 and sums of 0.0),
so the rational model coincides with the floating-point computation and neither
the hash nor the square root influences the result. -/
theorem C1_counterexample :
    (move_to_next2 (fun _ _ => 0) (fun _ => 1) 0 (List.replicate 8 (3, 0))
        ⟨[⟨65535, 0⟩, ⟨0, 0⟩, ⟨65535, 0⟩, ⟨65535, 0⟩, ⟨0, 0⟩, ⟨65535, 0⟩, ⟨65535, 0⟩,
          ⟨65535, 0⟩, ⟨65535, 0⟩], 3, 3⟩
        ⟨4, 4, .foraging, 0⟩ (visual_buffers 1)).map (fun r => r.1.position) = some 6
    ∧ (⟨[⟨65535, 0⟩, ⟨0, 0⟩, ⟨65535, 0⟩, ⟨65535, 0⟩, ⟨0, 0⟩, ⟨65535, 0⟩, ⟨65535, 0⟩,
          ⟨65535, 0⟩, ⟨65535, 0⟩], 3, 3⟩ : AntSimVecImpl).cell 6 = some .blocker
    ∧ (⟨[⟨65535, 0⟩, ⟨0, 0⟩, ⟨65535, 0⟩, ⟨65535, 0⟩, ⟨0, 0⟩, ⟨65535, 0⟩, ⟨65535, 0⟩,
          ⟨65535, 0⟩, ⟨65535, 0⟩], 3, 3⟩ : AntSimVecImpl).cell 1 = some (.path 0 0) := by
  refine ⟨?_, by decide, by decide⟩
  rw [C1_move_eval]
  rfl


/-- C1 (amended): the movement step never selects a `None` slot — whenever
`move_to_next2` succeeds, the ant's new position is one of the `Some` entries of
the ring-1 neighbour buffer produced by `neighbors` (returned alongside the ant).
The claim's stronger statements — that a cell holding Blocker is never selected,
and that an ant surrounded by Blockers except one open Path cell always moves
into the open cell — are false on the code (see `C1_counterexample`): the
scoring loop skips a Blocker cell's pheromone contribution (`continue`) but
nothing excludes a Blocker slot as the selected destination. -/
theorem C1_move_selects_some_slot (hashFn : Nat → Nat → Nat) (sqrtFn : ℚ → ℚ)
    (seed : Nat) (points : List (ℚ × ℚ)) (onSim : AntSimVecImpl) (ant : Ant)
    (buffers : List (List (Option Nat))) (a' : Ant) (bufs' : List (List (Option Nat)))
    (h : move_to_next2 hashFn sqrtFn seed points onSim ant buffers = some (a', bufs')) :
    some a'.position ∈ bufs'.headD [] := by
  simp only [move_to_next2] at h
  split at h
  · rename_i hcond
    obtain ⟨bufs, hnb, h⟩ := Option.bind_eq_some.mp h
    obtain ⟨score0, hsc, h⟩ := Option.bind_eq_some.mp h
    obtain ⟨slot0, hslot0, h⟩ := Option.bind_eq_some.mp h
    obtain ⟨st, hloop, h⟩ := Option.bind_eq_some.mp h
    obtain ⟨p, hp, heq⟩ := Option.map_eq_some'.mp h
    have hbufs : bufs = bufs' := congrArg Prod.snd heq
    have hpa : a'.position = p := (congrArg Ant.position (congrArg Prod.fst heq)).symm
    subst hbufs
    rw [hpa]
    simp only [candidates_loop] at hloop
    refine foldlM_opt_inv _
      (fun b => ∀ q, b.2.1 = some q → some q ∈ bufs.headD []) ?_ _ _ st ?_ hloop p hp
    · intro b n b' hb hstep
      simp only [cand_step] at hstep
      obtain ⟨score, hsc2, hmap⟩ := Option.bind_eq_some.mp hstep
      obtain ⟨slot, hslot, heqq⟩ := Option.map_eq_some'.mp hmap
      subst heqq
      intro q hq
      cases slot with
      | none => exact hb q hq
      | some pos =>
        split at hq
        · rename_i x first heqf
          obtain rfl : pos = first := by injection heqf
          split at hq
          · have hq2 : some pos = some q := hq
            obtain rfl : pos = q := by injection hq2
            exact List.get?_mem hslot
          · exact hb q hq
        · rename_i x heqf
          exact absurd heqf (by simp)
    · intro q hq
      cases slot0 with
      | some first =>
        simp only [head_candidate] at hq
        obtain rfl : first = q := by injection hq
        exact List.get?_mem hslot0
      | none =>
        simp only [head_candidate] at hq
        exact Option.noConfusion hq
  · exact Option.noConfusion h

/-- Witness for C1's amended theorem, at the counterexample input: the selected
position 6 is a `Some` entry of the ring-1 buffer. -/
theorem C1_move_selects_some_slot_witness :
    some (6 : Nat) ∈
      ([[some 6, some 7, some 8, some 5, some 2, some 1, some 0, some 3]] :
        List (List (Option Nat))).headD [] :=
  C1_move_selects_some_slot (fun _ _ => 0) (fun _ => 1) 0 (List.replicate 8 (3, 0))
    ⟨[⟨65535, 0⟩, ⟨0, 0⟩, ⟨65535, 0⟩, ⟨65535, 0⟩, ⟨0, 0⟩, ⟨65535, 0⟩, ⟨65535, 0⟩,
      ⟨65535, 0⟩, ⟨65535, 0⟩], 3, 3⟩
    ⟨4, 4, .foraging, 0⟩ (visual_buffers 1) ⟨6, 4, .foraging, 0⟩
    [[some 6, some 7, some 8, some 5, some 2, some 1, some 0, some 3]]
    C1_move_eval

/-- C2 (evaluation at the failing input): at the corner (0, 0) of a 2×1 grid with
range R = 2, `neighbors` leaves every ring-1 slot `None`, although the true
in-bounds 8-connected neighbor (1, 0) at Chebyshev distance 1 exists, so the
`Some`-slot count (0) differs from the true neighbor count (1).  Cause: line 187
of ant_sim.rs computes `uprange_x` as `sim.height() - 1 - x` under the guard
`sim.width() - x <= range` (width/height axis slip); here that yields
`uprange_x = 0` instead of 1 and every side-walk loop is skipped. -/
theorem C2_ring_buffer_eval :
    neighbors ⟨[⟨0, 0⟩, ⟨0, 0⟩], 1, 2⟩ 0
        [List.replicate 8 none, List.replicate 16 none] =
      some [List.replicate 8 none, List.replicate 16 none]
    ∧ (List.replicate 8 (none : Option Nat)).countP Option.isSome = 0
    ∧ true_ring_count 2 1 0 0 1 = 1 :=
  ⟨by decide, by decide, by decide⟩

/-- C10: food is not conserved across a tick: two Foraging ants on the same
`Food amount` cell (with `amount > food_haul_amount > 0`) each read the frozen
source snapshot, so one `update` turns both into `Hauling food_haul_amount`
while the destination cell, written twice with the same value, becomes
`Food (amount - food_haul_amount)` — the total hauled (2×haul) exceeds what the
cell lost (haul). -/
theorem C10_food_overdraw (hashFn : Nat → Nat → Nat) (sqrtFn : ℚ → ℚ)
    (s into : AntSimulator) (a1 a2 : Ant) (amount : Nat)
    (hants : s.ants = [a1, a2]) (hpos2 : a2.position = a1.position)
    (hs1 : a1.state = .foraging) (hs2 : a2.state = .foraging)
    (hcell : s.sim.cell a1.position = some (.food amount))
    (hhaul : s.config.food_haul_amount < amount)
    (hhpos : 0 < s.config.food_haul_amount)
    (hcomp : s.sim.check_compatible into.sim = true)
    (hinv : s.sim.check_invariant = true)
    (hlen : into.ants.length = 2) :
    ∃ r, AntSimulator.update hashFn sqrtFn s into = some r
      ∧ r.ants = [⟨a1.position, a1.position, .hauling s.config.food_haul_amount,
                     a1.explore_weight⟩,
                   ⟨a2.position, a2.position, .hauling s.config.food_haul_amount,
                     a2.explore_weight⟩]
      ∧ r.sim.cell a1.position = some (.food (amount - s.config.food_haul_amount))
      ∧ s.config.food_haul_amount + s.config.food_haul_amount >
          amount - (amount - s.config.food_haul_amount) := by
  obtain ⟨g1, hg1⟩ :
      ∃ g1, decay_pheromones s.sim into.sim s.config.pheromone_decay_amount = some g1 := by
    unfold decay_pheromones AntSimVecImpl.cells
    rw [hinv]
    exact ⟨_, rfl⟩
  have hslen : into.sim.contains.length = s.sim.contains.length :=
    (check_compatible_iff.mp hcomp).1.symm
  have hplt : a1.position < s.sim.contains.length := cell_some_lt hcell
  have hg1len : g1.contains.length = into.sim.contains.length := decay_length hg1
  have hg1cell : g1.cell a1.position = some (.food amount) := by
    simp only [AntSimVecImpl.cell] at hcell ⊢
    rw [decay_cell_char hg1 a1.position, if_pos ⟨hplt, by omega⟩]
    obtain ⟨ci, hci, hto⟩ := Option.map_eq_some'.mp hcell
    rw [hci, Option.map_some', hto, Option.map_some']
    exact congrArg some (to_cell_from_cell_nonpath rfl)
  have htf : take_food amount s.config.food_haul_amount =
      (s.config.food_haul_amount, .food (amount - s.config.food_haul_amount)) := by
    simp [take_food, hhaul]
  have hga : update_ants hashFn sqrtFn s.sim s.seed s.config.food_haul_amount
      s.config.distance_points [a1, a2] g1 (visual_buffers into.config.visual_range) =
      some ([⟨a1.position, a1.position, .hauling s.config.food_haul_amount,
               a1.explore_weight⟩,
             ⟨a2.position, a2.position, .hauling s.config.food_haul_amount,
               a2.explore_weight⟩],
        (g1.set_cell a1.position (.food (amount - s.config.food_haul_amount))).set_cell
          a1.position (.food (amount - s.config.food_haul_amount)),
        visual_buffers into.config.visual_range) := by
    simp only [update_ants, update_ants_go, hpos2, hcell, hs1, hs2, htf, Option.map_some']
  have hg3cell :
      ((g1.set_cell a1.position (.food (amount - s.config.food_haul_amount))).set_cell
        a1.position (.food (amount - s.config.food_haul_amount))).cell a1.position =
      some (.food (amount - s.config.food_haul_amount)) := by
    rw [cell_set_cell, if_pos ⟨rfl, by rw [set_cell_length]; omega⟩]
    exact congrArg some (to_cell_from_cell_nonpath rfl)
  have hg4cell :
      (((g1.set_cell a1.position (.food (amount - s.config.food_haul_amount))).set_cell
        a1.position (.food (amount - s.config.food_haul_amount))).set_cell
        a1.position (.food (amount - s.config.food_haul_amount))).cell a1.position =
      some (.food (amount - s.config.food_haul_amount)) := by
    rw [cell_set_cell, if_pos ⟨rfl, by rw [set_cell_length, set_cell_length]; omega⟩]
    exact congrArg some (to_cell_from_cell_nonpath rfl)
  have htrail : update_ant_trail [a1, a2]
      ((g1.set_cell a1.position (.food (amount - s.config.food_haul_amount))).set_cell
        a1.position (.food (amount - s.config.food_haul_amount))) =
      some ((((g1.set_cell a1.position (.food (amount - s.config.food_haul_amount))).set_cell
        a1.position (.food (amount - s.config.food_haul_amount))).set_cell
        a1.position (.food (amount - s.config.food_haul_amount))).set_cell
        a1.position (.food (amount - s.config.food_haul_amount))) := by
    simp only [update_ant_trail, hpos2, hs1, hs2, hg3cell, hg4cell]
  refine ⟨⟨((((g1.set_cell a1.position (.food (amount - s.config.food_haul_amount))).set_cell
      a1.position (.food (amount - s.config.food_haul_amount))).set_cell
      a1.position (.food (amount - s.config.food_haul_amount))).set_cell
      a1.position (.food (amount - s.config.food_haul_amount))),
    [⟨a1.position, a1.position, .hauling s.config.food_haul_amount, a1.explore_weight⟩,
     ⟨a2.position, a2.position, .hauling s.config.food_haul_amount, a2.explore_weight⟩],
    (s.seed + s.config.seed_step) % W64, into.config⟩, ?_, rfl, ?_, by omega⟩
  · simp only [AntSimulator.update, hcomp, if_true, hants, hlen, List.length_cons,
      List.length_nil, hg1, Option.some_bind, hga, htrail, Option.map_some']
  · rw [cell_set_cell, if_pos ⟨rfl, by rw [set_cell_length, set_cell_length, set_cell_length]; omega⟩]
    exact congrArg some (to_cell_from_cell_nonpath rfl)

/-- Witness for C10: two Foraging ants on `Food 50` with haul amount 20: the
update succeeds (both become `Hauling 20`, the cell `Food 30`). -/
theorem C10_food_overdraw_witness :
    (AntSimulator.update (fun _ _ => 0) (fun _ => 1)
      ⟨⟨[⟨50, 65535⟩], 1, 1⟩, [⟨0, 0, .foraging, 0⟩, ⟨0, 0, .foraging, 0⟩], 7,
        ⟨[], 20, 3, 5, 1⟩⟩
      ⟨⟨[⟨1, 2⟩], 1, 1⟩, [⟨0, 0, .foraging, 0⟩, ⟨0, 0, .foraging, 0⟩], 0,
        ⟨[], 20, 3, 5, 1⟩⟩).isSome = true := by
  obtain ⟨r, hr, -, -, -⟩ := C10_food_overdraw (fun _ _ => 0) (fun _ => 1)
    ⟨⟨[⟨50, 65535⟩], 1, 1⟩, [⟨0, 0, .foraging, 0⟩, ⟨0, 0, .foraging, 0⟩], 7,
      ⟨[], 20, 3, 5, 1⟩⟩
    ⟨⟨[⟨1, 2⟩], 1, 1⟩, [⟨0, 0, .foraging, 0⟩, ⟨0, 0, .foraging, 0⟩], 0,
      ⟨[], 20, 3, 5, 1⟩⟩
    ⟨0, 0, .foraging, 0⟩ ⟨0, 0, .foraging, 0⟩ 50 rfl rfl rfl rfl (by decide)
    (by decide) (by decide) (by decide) (by decide) (by decide)
  rw [hr]
  rfl

/-- C3: running `update` is deterministic: two simulators constructed identically
(same grid contents, ant list, seed and config, for both buffers of the pair) and
stepped any number of times produce identical states — positions, ant states,
seeds and grid contents — after every step.  The per-position explore score
`simple_hash2` is a pure function of `(position, seed)` by construction (its
external hasher enters only through the fixed parameter `hashFn`; there is no
hidden state in the embedding, mirroring the absence of global state in the
source's hashing). -/
theorem C3_determinism (hashFn : Nat → Nat → Nat) (sqrtFn : ℚ → ℚ)
    (s1 s2 t1 t2 : AntSimulator)
    (hs : s1.sim = s2.sim ∧ s1.ants = s2.ants ∧ s1.seed = s2.seed ∧ s1.config = s2.config)
    (ht : t1.sim = t2.sim ∧ t1.ants = t2.ants ∧ t1.seed = t2.seed ∧ t1.config = t2.config) :
    ∀ n, runN hashFn sqrtFn n s1 t1 = runN hashFn sqrtFn n s2 t2 := by
  have hs12 : s1 = s2 := by
    obtain ⟨h1, h2, h3, h4⟩ := hs
    cases s1
    cases s2
    simp_all
  have ht12 : t1 = t2 := by
    obtain ⟨h1, h2, h3, h4⟩ := ht
    cases t1
    cases t2
    simp_all
  subst hs12
  subst ht12
  intro n
  rfl

/-- Witness for C3: two identically-built 1×1 simulators agree after 2 steps. -/
theorem C3_determinism_witness :
    runN (fun _ _ => 0) (fun _ => 1) 2
        ⟨⟨[⟨0, 0⟩], 1, 1⟩, [], 5, ⟨[], 1, 1, 3, 1⟩⟩
        ⟨⟨[⟨0, 0⟩], 1, 1⟩, [], 5, ⟨[], 1, 1, 3, 1⟩⟩ =
      runN (fun _ _ => 0) (fun _ => 1) 2
        ⟨⟨[⟨0, 0⟩], 1, 1⟩, [], 5, ⟨[], 1, 1, 3, 1⟩⟩
        ⟨⟨[⟨0, 0⟩], 1, 1⟩, [], 5, ⟨[], 1, 1, 3, 1⟩⟩ :=
  C3_determinism (fun _ _ => 0) (fun _ => 1) _ _ _ _
    ⟨rfl, rfl, rfl, rfl⟩ ⟨rfl, rfl, rfl, rfl⟩ 2

/-- C8: `update` asserts grid compatibility (equal width, height and cell count)
before anything else: with incompatible grids the call fails (`none`, modelling
the panic) and — the embedding being pure — nothing of either buffer is touched;
with compatible grids the assertion passes, the grid passes (`decay_pheromones`,
`update_ant_trail` writes) perform no per-cell fallible operation, and with no
ants (so that the per-ant `unwrap`s are vacuous) the whole tick succeeds. -/
theorem C8_compat_assert (hashFn : Nat → Nat → Nat) (sqrtFn : ℚ → ℚ)
    (s into : AntSimulator) :
    (s.sim.check_compatible into.sim = false →
      AntSimulator.update hashFn sqrtFn s into = none)
    ∧ (s.sim.check_compatible into.sim = true → s.sim.check_invariant = true →
        s.ants = [] → into.ants = [] →
        ∃ r, AntSimulator.update hashFn sqrtFn s into = some r) := by
  constructor
  · intro h
    simp [AntSimulator.update, h]
  · intro hcomp hinv hs hi
    obtain ⟨g1, hg1⟩ :
        ∃ g1, decay_pheromones s.sim into.sim s.config.pheromone_decay_amount = some g1 := by
      unfold decay_pheromones AntSimVecImpl.cells
      rw [hinv]
      exact ⟨_, rfl⟩
    refine ⟨⟨g1, [], (s.seed + s.config.seed_step) % W64, into.config⟩, ?_⟩
    simp only [AntSimulator.update, hcomp, hs, hi, List.length_nil, if_true, hg1,
      Option.some_bind, update_ants, update_ants_go, update_ant_trail, Option.map_some']

/-- Witness for C8: a 1×1/1×2 grid pair makes `update` fail fast; a compatible
1×1 pair with no ants makes the tick succeed. -/
theorem C8_compat_assert_witness :
    AntSimulator.update (fun _ _ => 0) (fun _ => 1)
        ⟨⟨[⟨0, 0⟩], 1, 1⟩, [], 5, ⟨[], 1, 1, 3, 1⟩⟩
        ⟨⟨[⟨0, 0⟩, ⟨0, 0⟩], 1, 2⟩, [], 5, ⟨[], 1, 1, 3, 1⟩⟩ = none
    ∧ (AntSimulator.update (fun _ _ => 0) (fun _ => 1)
        ⟨⟨[⟨0, 0⟩], 1, 1⟩, [], 5, ⟨[], 1, 1, 3, 1⟩⟩
        ⟨⟨[⟨4, 7⟩], 1, 1⟩, [], 9, ⟨[], 1, 1, 3, 1⟩⟩).isSome = true := by
  constructor
  · exact (C8_compat_assert (fun _ _ => 0) (fun _ => 1)
      ⟨⟨[⟨0, 0⟩], 1, 1⟩, [], 5, ⟨[], 1, 1, 3, 1⟩⟩
      ⟨⟨[⟨0, 0⟩, ⟨0, 0⟩], 1, 2⟩, [], 5, ⟨[], 1, 1, 3, 1⟩⟩).1 (by decide)
  · obtain ⟨r, hr⟩ := (C8_compat_assert (fun _ _ => 0) (fun _ => 1)
      ⟨⟨[⟨0, 0⟩], 1, 1⟩, [], 5, ⟨[], 1, 1, 3, 1⟩⟩
      ⟨⟨[⟨4, 7⟩], 1, 1⟩, [], 9, ⟨[], 1, 1, 3, 1⟩⟩).2 (by decide) (by decide) rfl rfl
    rw [hr]
    rfl

/-- C7: grid position codec round-trip for `AntSimVecImpl`: for every in-bounds
`(x, y)` (`x < width`, `y < height`), `encode` yields `y * width + x` and decoding
it gives back `(x, y)`; for out-of-bounds coordinates `encode` returns `None`;
and `encode (decode p) = p` for every valid position `p` (any `p < width * height`)
of the same grid. -/
theorem C7_encode_decode (g : AntSimVecImpl) (hw : 0 < g.width) (x y p : Nat) :
    (x < g.width → y < g.height →
      g.encode ⟨x, y⟩ = some (y * g.width + x) ∧
      (g.encode ⟨x, y⟩).map g.decode = some ⟨x, y⟩)
    ∧ (¬(x < g.width ∧ y < g.height) → g.encode ⟨x, y⟩ = none)
    ∧ (p < g.width * g.height → g.encode (g.decode p) = some p) := by
  refine ⟨fun hx hy => ?_, fun hob => ?_, fun hp => ?_⟩
  · have henc : g.encode ⟨x, y⟩ = some (y * g.width + x) := by
      simp [AntSimVecImpl.encode, hx, hy]
    refine ⟨henc, ?_⟩
    rw [henc, Option.map_some']
    have hx' : (y * g.width + x) % g.width = x := by
      rw [Nat.add_comm, Nat.add_mul_mod_self_right, Nat.mod_eq_of_lt hx]
    have hy' : (y * g.width + x) / g.width = y := by
      rw [Nat.add_comm, Nat.add_mul_div_right _ _ hw, Nat.div_eq_of_lt hx, Nat.zero_add]
    simp [AntSimVecImpl.decode, hx', hy']
  · simp only [AntSimVecImpl.encode]
    rw [if_neg hob]
  · have hx : p % g.width < g.width := Nat.mod_lt _ hw
    have hy : p / g.width < g.height := by
      rw [Nat.div_lt_iff_lt_mul hw]
      exact Nat.lt_of_lt_of_le hp (by rw [Nat.mul_comm])
    simp only [AntSimVecImpl.decode, AntSimVecImpl.encode]
    rw [if_pos ⟨hx, hy⟩]
    have h2 : p / g.width * g.width + p % g.width = p := by
      rw [Nat.mul_comm]
      exact Nat.div_add_mod p g.width
    rw [h2]

/-- Witness for C7 on a 3-wide, 2-high grid: (2, 1) encodes to 5 and round-trips,
(7, 0) is rejected, and position 5 round-trips through decode/encode. -/
theorem C7_encode_decode_witness :
    ((⟨List.replicate 6 ⟨0, 0⟩, 2, 3⟩ : AntSimVecImpl).encode ⟨2, 1⟩ = some (1 * 3 + 2)
      ∧ ((⟨List.replicate 6 ⟨0, 0⟩, 2, 3⟩ : AntSimVecImpl).encode ⟨2, 1⟩).map
          (⟨List.replicate 6 ⟨0, 0⟩, 2, 3⟩ : AntSimVecImpl).decode = some ⟨2, 1⟩)
    ∧ (⟨List.replicate 6 ⟨0, 0⟩, 2, 3⟩ : AntSimVecImpl).encode ⟨7, 0⟩ = none
    ∧ (⟨List.replicate 6 ⟨0, 0⟩, 2, 3⟩ : AntSimVecImpl).encode
        ((⟨List.replicate 6 ⟨0, 0⟩, 2, 3⟩ : AntSimVecImpl).decode 5) = some 5 := by
  refine ⟨(C7_encode_decode ⟨List.replicate 6 ⟨0, 0⟩, 2, 3⟩ (by decide) 2 1 5).1
      (by decide) (by decide),
    (C7_encode_decode ⟨List.replicate 6 ⟨0, 0⟩, 2, 3⟩ (by decide) 7 0 5).2.1 (by decide),
    (C7_encode_decode ⟨List.replicate 6 ⟨0, 0⟩, 2, 3⟩ (by decide) 2 1 5).2.2 (by decide)⟩

end AntSim
